import Mathlib

/-!
Verification of the Session Reasoning Engine specification for the
Companion mental-health assistant against the repository.

The repository ships the chat frontend (TypeScript under `frontend/src`)
while the reasoning engine itself (knowledge-graph store, rule catalog,
forward-chaining evaluator, ranking, explanation generator, escalation
gate) exists only as design documentation; those components are modelled
here from the specification, and the frontend behaviour (session hook,
API client, confidence mapping, crisis alert) is embedded directly from
the TypeScript source.
-/

set_option maxRecDepth 8192

deriving instance DecidableEq for Except

namespace Companion

/-! ## Data model (spec section 3)

Modelled from the spec: a Fact is a subject-predicate-object triple,
uniquely identified by its three components.  Entity references and
literals are both opaque strings. -/

structure Fact where
  subj : String
  pred : String
  obj : String
  deriving DecidableEq, Repr

/-- Modelled from the spec: a triple-pattern slot is either a bound
constant or a free variable. -/
inductive Term where
  | const : String → Term
  | var : String → Term
  deriving DecidableEq, Repr

/-- Modelled from the spec: a Triple Pattern is a Fact template whose
subject, predicate and object may be bound values or free variables. -/
structure Pattern where
  subj : Term
  pred : Term
  obj : Term
  deriving DecidableEq, Repr

/-- Modelled from the spec: a Rule is an id, an ordered antecedent of
triple patterns with shared variables, a consequent pattern and an
integer priority. -/
structure Rule where
  id : String
  antecedent : List Pattern
  consequent : Pattern
  priority : Int
  deriving DecidableEq, Repr

/-- A variable binding: an association list from variable names to
entity identifiers. -/
abbrev Binding := List (String × String)

/-! ## Pattern matching with variable unification (spec section 4.1/4.3) -/

/-- Match one pattern slot against one fact component under a binding:
a constant must equal the component, a variable must either agree with
its existing binding or be freshly bound. -/
def matchTerm (t : Term) (v : String) (b : Binding) : Option Binding :=
  match t with
  | .const c => if c = v then some b else none
  | .var x =>
    match b.lookup x with
    | some w => if w = v then some b else none
    | none => some ((x, v) :: b)

/-- Match a whole triple pattern against a fact, threading the binding
through subject, predicate and object. -/
def matchPattern (p : Pattern) (f : Fact) (b : Binding) : Option Binding :=
  (matchTerm p.subj f.subj b).bind (fun b1 =>
    (matchTerm p.pred f.pred b1).bind (fun b2 => matchTerm p.obj f.obj b2))

/-- Conjunctive antecedent matching: all patterns must unify against the
graph under one consistent binding (a join on shared variables), in
antecedent declaration order. -/
def matchAntecedent (pats : List Pattern) (g : List Fact) (b : Binding) : List Binding :=
  match pats with
  | [] => [b]
  | p :: rest =>
    (g.filterMap (fun f => matchPattern p f b)).flatMap (fun b2 => matchAntecedent rest g b2)

/-- Instantiate one pattern slot under a binding; an unbound variable
yields none. -/
def instTerm (b : Binding) (t : Term) : Option String :=
  match t with
  | .const c => some c
  | .var x => b.lookup x

/-- Instantiate a consequent pattern under a binding, producing a fact
when every slot is bound. -/
def instantiate (b : Binding) (p : Pattern) : Option Fact :=
  (instTerm b p.subj).bind (fun s =>
    (instTerm b p.pred).bind (fun pr =>
      (instTerm b p.obj).map (fun o => ⟨s, pr, o⟩)))

/-- All consequent instantiations of a rule over the current graph: one
candidate fact per satisfying antecedent binding. -/
def ruleCandidates (r : Rule) (g : List Fact) : List Fact :=
  (matchAntecedent r.antecedent g []).filterMap (fun b => instantiate b r.consequent)

/-! ## Forward-chaining evaluator (spec section 4.3) -/

/-- Append the candidates that are neither already in the graph nor
already collected this iteration (the dedup check of the evaluator
pseudocode). -/
def addNew (g : List Fact) (acc : List Fact) : List Fact → List Fact
  | [] => acc
  | c :: cs => if c ∈ g ∨ c ∈ acc then addNew g acc cs else addNew g (acc ++ [c]) cs

/-- One evaluator iteration over the (already priority-ordered) rules,
collecting the new facts of this round. -/
def stepAux (g : List Fact) : List Rule → List Fact → List Fact
  | [], acc => acc
  | r :: rs, acc => stepAux g rs (addNew g acc (ruleCandidates r g))

/-- The new facts derivable in one iteration of the evaluator loop. -/
def step (rules : List Rule) (g : List Fact) : List Fact :=
  stepAux g rules []

/-- Modelled from the spec (section 7 error taxonomy); only the
evaluator-relevant error is needed here. -/
inductive KrrError where
  | nonTerminatingRuleSet
  deriving DecidableEq, Repr

/-- The evaluator loop: repeat iterations until a round derives no new
facts; exhausting the iteration budget raises
NonTerminatingRuleSetError instead of looping. -/
def evalLoop (rules : List Rule) : Nat → List Fact → Except KrrError (List Fact)
  | 0, _ => .error .nonTerminatingRuleSet
  | fuel + 1, g =>
    let nf := step rules g
    if nf = [] then .ok g else evalLoop rules fuel (g ++ nf)

/-- Modelled from the spec: naive forward chaining to a fixpoint with a
defensive iteration bound MAX_ITERATIONS supplied by configuration. -/
def evaluate (maxIterations : Nat) (rules : List Rule) (g : List Fact) :
    Except KrrError (List Fact) :=
  evalLoop rules maxIterations g

/-- A graph is closed under the catalog when no rule can derive a fact
not already present. -/
def Closed (rules : List Rule) (g : List Fact) : Prop :=
  ∀ r ∈ rules, ∀ c ∈ ruleCandidates r g, c ∈ g

/-! ## Termination bound for the evaluator

The rule language has no function symbols: a consequent instantiation
fills each slot either with a rule constant or with an entity occurring
in some graph fact.  The candidate space is therefore finite, which is
what makes the defensive MAX_ITERATIONS bound sufficient. -/

/-- The three components of a fact. -/
def factComponents (f : Fact) : List String :=
  [f.subj, f.pred, f.obj]

/-- The constants mentioned by one pattern slot. -/
def termConsts (t : Term) : List String :=
  match t with
  | .const c => [c]
  | .var _ => []

/-- The constants mentioned by a rule consequent. -/
def consequentConsts (r : Rule) : List String :=
  termConsts r.consequent.subj ++ termConsts r.consequent.pred ++ termConsts r.consequent.obj

/-- Every entity that can ever appear in a fact component: the
components of the initial graph plus the consequent constants of the
catalog. -/
def entityUniverse (rules : List Rule) (g : List Fact) : List String :=
  g.flatMap factComponents ++ rules.flatMap consequentConsts

/-- The values one consequent slot can take over a given entity list. -/
def slotChoices (ents : List String) (t : Term) : List String :=
  match t with
  | .const c => [c]
  | .var _ => ents

/-- All instantiations of one rule consequent over a given entity list. -/
def candsOfRule (ents : List String) (r : Rule) : List Fact :=
  (slotChoices ents r.consequent.subj).flatMap (fun s =>
    (slotChoices ents r.consequent.pred).flatMap (fun p =>
      (slotChoices ents r.consequent.obj).map (fun o => ⟨s, p, o⟩)))

/-- Every fact the evaluator could ever add, together with the initial
graph: the finite universe bounding the growth of the graph. -/
def factUniverse (rules : List Rule) (g : List Fact) : List Fact :=
  g ++ rules.flatMap (candsOfRule (entityUniverse rules g))

/-- The defensive evaluator bound: one more iteration than the size of
the finite fact universe, so a strictly growing graph must reach its
fixpoint before the budget is exhausted. -/
def evalBound (rules : List Rule) (g : List Fact) : Nat :=
  (factUniverse rules g).length + 1

/-- All three components of a fact lie in the given entity list. -/
def componentsIn (ents : List String) (f : Fact) : Prop :=
  f.subj ∈ ents ∧ f.pred ∈ ents ∧ f.obj ∈ ents

/-! ## Knowledge Graph Store (spec sections 3 and 4.1)

Modelled from the spec: a Session Graph holds a set of facts plus a
monotonically increasing turn counter; facts may carry a provenance
tag (originating user turn or deriving rule). -/

/-- Provenance tag of a fact. -/
inductive Source where
  | userTurn : Nat → Source
  | rule : String → Source
  deriving DecidableEq, Repr

/-- Modelled from the spec: the per-session knowledge graph. -/
structure SessionGraph where
  facts : List Fact
  provenance : List (Fact × Source)
  turnCounter : Nat
  deriving DecidableEq, Repr

/-- Modelled from the spec (section 4.1): `add` returns false and is a
no-op when the fact already exists; otherwise the fact is appended in
insertion order. -/
def SessionGraph.add (g : SessionGraph) (f : Fact) (src : Source) : Bool × SessionGraph :=
  if f ∈ g.facts then (false, g)
  else (true, { g with facts := g.facts ++ [f], provenance := g.provenance ++ [(f, src)] })

/-- Add a list of facts with a common provenance tag, via repeated
idempotent `add`. -/
def SessionGraph.addAll (g : SessionGraph) (fs : List Fact) (src : Source) : SessionGraph :=
  match fs with
  | [] => g
  | f :: rest => ((g.add f src).2).addAll rest src

/-- Modelled from the spec (section 4.1): pattern query with variable
unification over the graph. -/
def SessionGraph.query (g : SessionGraph) (p : Pattern) : List (Fact × Binding) :=
  g.facts.filterMap (fun f => (matchPattern p f []).map (fun b => (f, b)))

/-- Modelled from the spec (section 4.1): the ordered export of all
facts, in insertion order. -/
def SessionGraph.export (g : SessionGraph) : List Fact :=
  g.facts

/-! ## Rule Catalog ordering (spec section 4.2) -/

/-- The deterministic catalog order: by priority (higher first), ties
broken by rule id lexical order. -/
def ruleLe (a b : Rule) : Prop :=
  b.priority < a.priority ∨ (a.priority = b.priority ∧ a.id ≤ b.id)

instance : DecidableRel ruleLe := fun a b => by
  unfold ruleLe; infer_instance

instance : IsTotal Rule ruleLe where
  total a b := by
    unfold ruleLe
    rcases lt_trichotomy a.priority b.priority with h | h | h
    · exact Or.inr (Or.inl h)
    · rcases le_total a.id b.id with h2 | h2
      · exact Or.inl (Or.inr ⟨h, h2⟩)
      · exact Or.inr (Or.inr ⟨h.symm, h2⟩)
    · exact Or.inl (Or.inl h)

instance : IsTrans Rule ruleLe where
  trans a b c hab hbc := by
    unfold ruleLe at *
    rcases hab with h1 | ⟨h1, h1b⟩ <;> rcases hbc with h2 | ⟨h2, h2b⟩
    · exact Or.inl (h2.trans h1)
    · exact Or.inl (h2 ▸ h1)
    · exact Or.inl (h1 ▸ h2)
    · exact Or.inr ⟨h1.trans h2, h1b.trans h2b⟩

/-- The strict part of the catalog order. -/
def ruleKeyLt (a b : Rule) : Prop :=
  b.priority < a.priority ∨ (a.priority = b.priority ∧ a.id < b.id)

/-- The catalog order up to full equality of rules; antisymmetric, so
two sorted permutations of a duplicate-free catalog coincide. -/
def ruleOrd (a b : Rule) : Prop :=
  ruleKeyLt a b ∨ a = b

instance : IsAntisymm Rule ruleOrd where
  antisymm a b hab hba := by
    rcases hab with hab | hab
    · rcases hba with hba | hba
      · unfold ruleKeyLt at hab hba
        rcases hab with h1 | ⟨h1, h1b⟩ <;> rcases hba with h2 | ⟨h2, h2b⟩
        · exact absurd h1 (lt_asymm h2)
        · exact absurd h1 (h2 ▸ lt_irrefl _)
        · exact absurd h2 (h1 ▸ lt_irrefl _)
        · exact absurd h1b (lt_asymm h2b)
      · exact hba.symm
    · exact hab

/-- Modelled from the spec (section 4.2): loading the catalog fixes the
deterministic priority order, independent of the storage order of the
rule definitions. -/
def loadCatalog (defs : List Rule) : List Rule :=
  List.insertionSort ruleLe defs

/-! ## Safety Escalation Gate (spec sections 3 and 4.6) -/

/-- The escalation category enumeration. -/
inductive EscCategory where
  | selfHarm
  | suicidalIdeation
  | noneCat
  deriving DecidableEq, Repr

/-- Escalation verdict: a boolean plus a category, computed fresh each
turn from the current turn evidence. -/
structure EscalationVerdict where
  triggered : Bool
  category : EscCategory
  deriving DecidableEq, Repr

/-- The configured crisis-term list of the gate. -/
structure CrisisConfig where
  suicidalTerms : List String
  selfHarmTerms : List String
  deriving Repr

/-- Evidence consumed from the NLP collaborator (spec section 6). -/
structure Evidence where
  emotions : List String
  symptoms : List String
  triggers : List String
  deriving Repr

/-- The concept identifiers of one turn of evidence. -/
def Evidence.concepts (ev : Evidence) : List String :=
  ev.emotions ++ ev.symptoms ++ ev.triggers

/-- Modelled from the spec (section 4.6): a fixed keyword match of the
turn evidence against the configured crisis-term list, total,
independent of the rule engine. -/
def escalationCheck (cfg : CrisisConfig) (ev : Evidence) : EscalationVerdict :=
  if ev.concepts.any (fun c => c ∈ cfg.suicidalTerms) then
    ⟨true, .suicidalIdeation⟩
  else if ev.concepts.any (fun c => c ∈ cfg.selfHarmTerms) then
    ⟨true, .selfHarm⟩
  else ⟨false, .noneCat⟩

/-- The fixed crisis response returned when the gate triggers; fixed
safety content, mirroring the CrisisAlert copy of the frontend. -/
def crisisResponseText : String :=
  "You are not alone. If you are in immediate danger or feeling overwhelmed, please reach out for help right now."

/-- The escalation event recorded on the graph when the gate triggers. -/
def escalationFact (sid : String) (tix : Nat) : Fact :=
  ⟨sid, "escalationTriggered", toString tix⟩

/-! ## Ranking and Recommendation Engine (spec section 4.4) -/

/-- The first catalog rule (in priority order) able to derive the given
fact from the graph; provenance follows priority order, first match
wins. -/
def derivingRule (catalog : List Rule) (g : List Fact) (f : Fact) : Option Rule :=
  catalog.find? (fun r => decide (f ∈ ruleCandidates r g))

/-- The rule id credited for a derived fact. -/
def ruleIdFor (catalog : List Rule) (g : List Fact) (f : Fact) : String :=
  match derivingRule catalog g f with
  | some r => r.id
  | none => ""

/-- The priority of the rule credited for a derived fact. -/
def rulePriorityFor (catalog : List Rule) (g : List Fact) (f : Fact) : Int :=
  match derivingRule catalog g f with
  | some r => r.priority
  | none => 0

/-- The supporting facts of a derived fact: the antecedent of the first
crediting rule, instantiated under the first satisfying binding. -/
def supportsOf (catalog : List Rule) (g : List Fact) (f : Fact) : List Fact :=
  match derivingRule catalog g f with
  | none => []
  | some r =>
    match (matchAntecedent r.antecedent g []).find?
        (fun b => decide (instantiate b r.consequent = some f)) with
    | none => []
    | some b => r.antecedent.filterMap (fun p => instantiate b p)

/-- The number of distinct supporting facts across the session. -/
def evidenceCountOf (catalog : List Rule) (g : List Fact) (f : Fact) : Int :=
  ((supportsOf catalog g f).dedup).length

/-- How many distinct user turns contributed at least one supporting
fact, read off the provenance tags — a deterministic integer derived
purely from counts. -/
def persistenceFactorOf (catalog : List Rule) (g : List Fact)
    (prov : List (Fact × Source)) (f : Fact) : Int :=
  (((supportsOf catalog g f).filterMap (fun sf =>
    match prov.lookup sf with
    | some (.userTurn n) => some n
    | _ => none)).dedup).length + 1

/-- Modelled from the spec (section 4.4): score per candidate state is
rule priority times evidence count times persistence factor. -/
def scoreOf (catalog : List Rule) (g : List Fact) (prov : List (Fact × Source))
    (f : Fact) : Int :=
  rulePriorityFor catalog g f * evidenceCountOf catalog g f
    * persistenceFactorOf catalog g prov f

/-- The ranking order: higher score first, ties broken by rule id. -/
def rankLe (catalog : List Rule) (g : List Fact) (prov : List (Fact × Source))
    (a b : Fact) : Prop :=
  scoreOf catalog g prov b < scoreOf catalog g prov a ∨
    (scoreOf catalog g prov a = scoreOf catalog g prov b ∧
      ruleIdFor catalog g a ≤ ruleIdFor catalog g b)

instance (catalog : List Rule) (g : List Fact) (prov : List (Fact × Source)) :
    DecidableRel (rankLe catalog g prov) := fun a b => by
  unfold rankLe; infer_instance

/-- Modelled from the spec (section 4.4): ranking totally orders the
derived risk states; it only reorders, never suppresses. -/
def rankStates (catalog : List Rule) (g : List Fact) (prov : List (Fact × Source))
    (derived : List Fact) : List Fact :=
  List.insertionSort (rankLe catalog g prov) derived

/-! ## Explanation Generator (spec section 4.5) -/

/-- Human-readable rendering of a fact. -/
def factText (f : Fact) : String :=
  f.subj ++ " " ++ f.pred ++ " " ++ f.obj

/-- Modelled from the spec (section 4.5): one human-readable step per
fact — a rule-firing line for derived facts, a detected-concept line
for raw evidence. -/
def explainFact (catalog : List Rule) (g : List Fact) (f : Fact) : String :=
  match derivingRule catalog g f with
  | some r => "Rule " ++ r.id ++ " fired: derived " ++ factText f
  | none => "Detected concept " ++ factText f

/-! ## Audit reference (spec section 6) -/

/-- A fact identifier for the audit hash. -/
def factId (f : Fact) : String :=
  f.subj ++ "|" ++ f.pred ++ "|" ++ f.obj

/-- A deterministic 32-bit string hash (explicit modulus, no machine
integers). -/
def stringHash (h : Nat) (s : String) : Nat :=
  s.data.foldl (fun acc c => (acc * 31 + c.toNat) % (2 ^ 32)) h

/-- Modelled from the spec (section 6): a stable hash over the session
id, turn index and the ordered list of contributing fact identifiers. -/
def auditHash (sid : String) (tix : Nat) (ids : List String) : Nat :=
  ids.foldl stringHash (stringHash (tix % (2 ^ 32)) sid)

/-! ## Per-turn pipeline (spec sections 2, 4.6 and 6) -/

/-- Evidence concepts materialized as graph facts, using the ontology
object properties of the repository (experiencesEmotion, hasSymptom,
triggeredBy). -/
def evidenceFacts (sid : String) (ev : Evidence) : List Fact :=
  ev.emotions.map (fun e => ⟨sid, "experiencesEmotion", e⟩)
    ++ ev.symptoms.map (fun s => ⟨sid, "hasSymptom", s⟩)
    ++ ev.triggers.map (fun t => ⟨sid, "triggeredBy", t⟩)

/-- Modelled from the spec (section 6): the response payload returned
to the chat layer. -/
structure EngineResponse where
  rankedConcerns : List String
  explanations : List String
  verdict : EscalationVerdict
  auditRef : Nat
  response : String
  derivedFacts : List Fact
  graph : SessionGraph
  deriving DecidableEq, Repr

/-- The session graph after the evidence of the turn has been appended
and the turn counter advanced. -/
def turnGraph (sid : String) (g : SessionGraph) (ev : Evidence) : SessionGraph :=
  { (g.addAll (evidenceFacts sid ev) (.userTurn (g.turnCounter + 1))) with
    turnCounter := g.turnCounter + 1 }

/-- The fixed crisis response of an escalated turn: the fixed safety
payload, no ranked states, no explanation trace, no derived facts; the
escalation event is still appended to the graph for traceability. -/
def crisisTurn (sid : String) (tix : Nat) (verdict : EscalationVerdict)
    (g1 : SessionGraph) : EngineResponse :=
  { rankedConcerns := [], explanations := [], verdict := verdict,
    auditRef := auditHash sid tix [], response := crisisResponseText,
    derivedFacts := [],
    graph := (g1.add (escalationFact sid tix) (.userTurn tix)).2 }

/-- The response of a normal (non-escalated) turn, built from the
evaluator fixpoint: the newly derived facts are recorded on the graph
with rule provenance, ranked, and rendered as an explanation trace. -/
def reasonedTurn (catalog : List Rule) (sid : String) (tix : Nat)
    (verdict : EscalationVerdict) (g1 : SessionGraph) (closedFacts : List Fact) :
    EngineResponse :=
  let derived := closedFacts.filter (fun f => f ∉ g1.facts)
  let g2 : SessionGraph :=
    { facts := closedFacts,
      provenance := g1.provenance
        ++ derived.map (fun f => (f, Source.rule (ruleIdFor catalog closedFacts f))),
      turnCounter := tix }
  let ranked := rankStates catalog closedFacts g2.provenance derived
  { rankedConcerns := ranked.map (fun f => f.obj),
    explanations := ranked.map (explainFact catalog closedFacts),
    verdict := verdict,
    auditRef := auditHash sid tix (closedFacts.map factId),
    response := "Here is what I understood from what you shared.",
    derivedFacts := derived,
    graph := g2 }

/-- Modelled from the spec (section 2 data flow): one reasoning turn —
append evidence, run the escalation gate (short-circuiting the
evaluator, ranking and explanations when triggered), otherwise forward
chain to a fixpoint, rank the newly derived states and render the
explanation trace. -/
def processTurn (cfg : CrisisConfig) (maxIterations : Nat) (catalog : List Rule)
    (sid : String) (g : SessionGraph) (ev : Evidence) :
    Except KrrError EngineResponse :=
  let tix := g.turnCounter + 1
  let g1 := turnGraph sid g ev
  let verdict := escalationCheck cfg ev
  if verdict.triggered then
    .ok (crisisTurn sid tix verdict g1)
  else
    (evaluate maxIterations catalog g1.facts).map
      (reasonedTurn catalog sid tix verdict g1)

/-! ## Frontend: session API client (`frontend/src/api/sessions.ts`)

The browser `localStorage` is modelled as an association list and an
HTTP response by its status, optional parsed error detail and parsed
body.  Each API function mirrors its TypeScript counterpart: an
`authFetch` that clears credentials and throws on 401, then a
non-ok check that throws the parsed detail or a fixed fallback. -/

abbrev LocalStorage := List (String × String)

/-- The `localStorage.removeItem` operation. -/
def removeItem (k : String) (s : LocalStorage) : LocalStorage :=
  s.filter (fun kv => kv.1 != k)

/-- An HTTP response as seen by the client: status code, the `detail`
field of an error body when present, and the parsed success body. -/
structure HttpResponse (α : Type) where
  status : Nat
  detail : Option String
  body : α

/-- The `response.ok` check: status in the 200 range. -/
def HttpResponse.ok {α : Type} (r : HttpResponse α) : Bool :=
  decide (200 ≤ r.status ∧ r.status < 300)

/-- The `authFetch` helper: on 401 the auth token and the stored user are removed
from local storage and an error is thrown; otherwise the response is
returned unchanged. -/
def authFetch {α : Type} (store : LocalStorage) (resp : HttpResponse α) :
    LocalStorage × Except String (HttpResponse α) :=
  if resp.status = 401 then
    (removeItem "companion_user" (removeItem "companion_auth_token" store),
      Except.error "Session expired. Please log in again.")
  else (store, Except.ok resp)

/-- The shared shape of every session API function: `authFetch`, then
throw the error detail (or the fixed fallback) on a non-ok response,
else return the parsed body. -/
def apiCall {α : Type} (fallback : String) (store : LocalStorage)
    (resp : HttpResponse α) : LocalStorage × Except String α :=
  match authFetch store resp with
  | (s, Except.error e) => (s, Except.error e)
  | (s, Except.ok r) =>
    if r.ok then (s, Except.ok r.body)
    else (s, Except.error (r.detail.getD fallback))

/-- The `SessionMessage` interface of `sessions.ts` (metadata elided to the fields the
claims touch). -/
structure SessionMessage where
  id : String
  role : String
  content : String
  timestamp : String
  deriving DecidableEq, Repr

/-- The `Session` interface of `sessions.ts`. -/
structure Session where
  session_id : String
  user_id : String
  title : String
  created_at : String
  updated_at : String
  messages : List SessionMessage
  inferred_states : List String
  risk_level : String
  deriving DecidableEq, Repr

/-- The `SessionSummary` interface of `sessions.ts`. -/
structure SessionSummary where
  session_id : String
  user_id : String
  title : String
  created_at : String
  updated_at : String
  message_count : Nat
  risk_level : String
  deriving DecidableEq, Repr

/-- The `SendMessageResponse` interface of `sessions.ts` (evidence sub-object elided
to its three concept lists). -/
structure SendMessageResponse where
  user_message_id : String
  assistant_message_id : String
  session_id : String
  response : String
  state : Option String
  confidence : Option String
  action : Option String
  emotions : List String
  symptoms : List String
  triggers : List String
  follow_up_questions : List String
  disclaimer : Option String
  deriving DecidableEq, Repr

/-- A blank `SendMessageResponse`, used as a concrete sample payload. -/
def emptyPayload : SendMessageResponse :=
  ⟨"", "", "", "", none, none, none, [], [], [], [], none⟩

/-- The `SessionStats` interface of `sessions.ts`. -/
structure SessionStats where
  total_sessions : Nat
  risk_low : Nat
  risk_medium : Nat
  risk_high : Nat
  top_symptoms : List (String × Nat)
  total_messages : Nat
  deriving DecidableEq, Repr

/-- The `getSessionStats` API function. -/
def getSessionStats (store : LocalStorage) (resp : HttpResponse SessionStats) :
    LocalStorage × Except String SessionStats :=
  apiCall "Failed to fetch session stats" store resp

/-- The `getSessions` API function. -/
def getSessions (store : LocalStorage) (resp : HttpResponse (List SessionSummary)) :
    LocalStorage × Except String (List SessionSummary) :=
  apiCall "Failed to fetch sessions" store resp

/-- The `getSession` API function. -/
def getSession (store : LocalStorage) (resp : HttpResponse Session) :
    LocalStorage × Except String Session :=
  apiCall "Failed to fetch session" store resp

/-- The `createSession` API function. -/
def createSession (store : LocalStorage) (resp : HttpResponse Session) :
    LocalStorage × Except String Session :=
  apiCall "Failed to create session" store resp

/-- The `sendMessage` API function. -/
def sendMessage (store : LocalStorage) (resp : HttpResponse SendMessageResponse) :
    LocalStorage × Except String SendMessageResponse :=
  apiCall "Failed to send message" store resp

/-- The `deleteSession` API function (its body is discarded by the caller). -/
def deleteSession (store : LocalStorage) (resp : HttpResponse Unit) :
    LocalStorage × Except String Unit :=
  apiCall "Failed to delete session" store resp

/-! ## Frontend: session hook and chat page
(`frontend/src/hooks/useSession.ts`, `frontend/src/pages/Chat.tsx`) -/

/-- A chat message as kept by the UI state; only the metadata field the
claims inspect (the numeric confidence) is retained. -/
structure Message where
  sender : String
  text : String
  confidence : Option ℚ
  deriving DecidableEq, Repr

/-- The numeric confidence stored in bot-message metadata, from the
symbolic confidence string of the backend:
`confidence === high ? 0.9 : confidence === medium ? 0.6 : 0.3`. -/
def numericConfidence (c : Option String) : ℚ :=
  if c = some "high" then 9 / 10
  else if c = some "medium" then 6 / 10
  else 3 / 10

/-- The bot message built from a backend response in `sendUserMessage`. -/
def mkBotMessage (p : SendMessageResponse) : Message :=
  ⟨"bot", p.response, some (numericConfidence p.confidence)⟩

/-- The system message appended when the backend call fails. -/
def mkErrorMessage (e : String) : Message :=
  ⟨"system", "System Error: Unable to process request. " ++ e, none⟩

/-- The message-list transition of `sendUserMessage`: append the user
message, then append either the bot reply (success) or a system error
message (failure); existing messages are never removed or changed. -/
def sendUserMessageMessages (ms : List Message) (text : String)
    (result : Except String SendMessageResponse) : List Message :=
  let ms1 := ms ++ [⟨"user", text, none⟩]
  match result with
  | Except.ok p => ms1 ++ [mkBotMessage p]
  | Except.error e => ms1 ++ [mkErrorMessage e]

/-- The Chat page shows the fixed `CrisisAlert` block exactly when the
latest result carries the crisis action
(`krrResult?.action === crisis_intervention`). -/
def showCrisisAlert (action : Option String) : Bool :=
  action == some "crisis_intervention"

/-! ## Helper lemmas -/

theorem lookup_removeItem_self (k : String) (s : LocalStorage) :
    (removeItem k s).lookup k = none := by
  induction s with
  | nil => rfl
  | cons kv rest ih =>
    rcases kv with ⟨a, b⟩
    by_cases h : a = k
    · have hd : removeItem k ((a, b) :: rest) = removeItem k rest := by
        simp only [removeItem, List.filter_cons]
        simp [h]
      rw [hd]; exact ih
    · have hd : removeItem k ((a, b) :: rest) = (a, b) :: removeItem k rest := by
        simp only [removeItem, List.filter_cons]
        simp [h]
      have hk : (k == a) = false :=
        beq_eq_false_iff_ne.mpr (fun hh => h hh.symm)
      rw [hd]
      simp only [List.lookup_cons, hk]
      exact ih

theorem lookup_none_removeItem (k k2 : String) (s : LocalStorage)
    (h : s.lookup k = none) : (removeItem k2 s).lookup k = none := by
  induction s with
  | nil => rfl
  | cons kv rest ih =>
    rcases kv with ⟨a, b⟩
    rw [List.lookup_cons] at h
    by_cases hk : (k == a) = true
    · simp only [hk] at h
      simp at h
    · have hkf : (k == a) = false := by simpa using hk
      simp only [hkf] at h
      have h2 := ih h
      by_cases h1 : a = k2
      · have hd : removeItem k2 ((a, b) :: rest) = removeItem k2 rest := by
          simp only [removeItem, List.filter_cons]
          simp [h1]
        rw [hd]; exact h2
      · have hd : removeItem k2 ((a, b) :: rest) = (a, b) :: removeItem k2 rest := by
          simp only [removeItem, List.filter_cons]
          simp [h1]
        rw [hd]
        simp only [List.lookup_cons, hkf]
        exact h2

theorem add_mem_noop (g : SessionGraph) (f : Fact) (src : Source)
    (h : f ∈ g.facts) : g.add f src = (false, g) := by
  simp [SessionGraph.add, h]

theorem apiCall_401 {α : Type} (fallback : String) (store : LocalStorage)
    (resp : HttpResponse α) (h : resp.status = 401) :
    apiCall fallback store resp =
      (removeItem "companion_user" (removeItem "companion_auth_token" store),
        Except.error "Session expired. Please log in again.") := by
  simp [apiCall, authFetch, h]

theorem except_map_ok {ε α β : Type} (e : Except ε α) (f : α → β) (b : β) :
    e.map f = Except.ok b ↔ ∃ a, e = Except.ok a ∧ b = f a := by
  cases e with
  | error err => simp [Except.map]
  | ok a =>
    simp only [Except.map, Except.ok.injEq]
    constructor
    · intro h; exact ⟨a, rfl, h.symm⟩
    · rintro ⟨a2, ha, hb⟩
      cases ha
      exact hb.symm

theorem processTurn_triggered (cfg : CrisisConfig) (maxIter : Nat) (catalog : List Rule)
    (sid : String) (g : SessionGraph) (ev : Evidence)
    (h : (escalationCheck cfg ev).triggered = true) :
    processTurn cfg maxIter catalog sid g ev =
      Except.ok (crisisTurn sid (g.turnCounter + 1) (escalationCheck cfg ev)
        (turnGraph sid g ev)) := by
  simp [processTurn, h]

theorem processTurn_ok_elim (cfg : CrisisConfig) (maxIter : Nat) (catalog : List Rule)
    (sid : String) (g : SessionGraph) (ev : Evidence) (resp : EngineResponse)
    (hok : processTurn cfg maxIter catalog sid g ev = Except.ok resp) :
    ((escalationCheck cfg ev).triggered = true ∧
      resp = crisisTurn sid (g.turnCounter + 1) (escalationCheck cfg ev)
        (turnGraph sid g ev)) ∨
    ((escalationCheck cfg ev).triggered = false ∧
      ∃ cf, evaluate maxIter catalog (turnGraph sid g ev).facts = Except.ok cf ∧
        resp = reasonedTurn catalog sid (g.turnCounter + 1)
          (escalationCheck cfg ev) (turnGraph sid g ev) cf) := by
  by_cases h : (escalationCheck cfg ev).triggered = true
  · left
    refine ⟨h, ?_⟩
    rw [processTurn_triggered cfg maxIter catalog sid g ev h] at hok
    exact (Except.ok.inj hok).symm
  · right
    have hf : (escalationCheck cfg ev).triggered = false := by
      simpa using h
    refine ⟨hf, ?_⟩
    unfold processTurn at hok
    simp only [hf, Bool.false_eq_true, if_false] at hok
    exact (except_map_ok _ _ _).mp hok

theorem escalationCheck_none_iff (cfg : CrisisConfig) (ev : Evidence) :
    (escalationCheck cfg ev).triggered = false ↔
      (escalationCheck cfg ev).category = EscCategory.noneCat := by
  unfold escalationCheck
  split_ifs <;> simp

theorem escalationCheck_cases (cfg : CrisisConfig) (ev : Evidence) :
    (escalationCheck cfg ev).category = EscCategory.selfHarm ∨
      (escalationCheck cfg ev).category = EscCategory.suicidalIdeation ∨
      (escalationCheck cfg ev).category = EscCategory.noneCat := by
  unfold escalationCheck
  split_ifs <;> simp

theorem addAll_facts_append (g : SessionGraph) (fs : List Fact) (src : Source) :
    ∃ t, (g.addAll fs src).facts = g.facts ++ t := by
  induction fs generalizing g with
  | nil => exact ⟨[], by simp [SessionGraph.addAll]⟩
  | cons f rest ih =>
    rw [SessionGraph.addAll]
    obtain ⟨t, ht⟩ := ih (g.add f src).2
    by_cases h : f ∈ g.facts
    · rw [add_mem_noop g f src h] at ht ⊢
      exact ⟨t, ht⟩
    · refine ⟨f :: t, ?_⟩
      rw [ht]
      simp [SessionGraph.add, h]

theorem evalLoop_ok_append (rules : List Rule) (fuel : Nat) (g r : List Fact)
    (h : evalLoop rules fuel g = Except.ok r) : ∃ t, r = g ++ t := by
  induction fuel generalizing g with
  | zero => exact absurd h (by simp [evalLoop])
  | succ n ih =>
    rw [evalLoop] at h
    by_cases hnf : step rules g = []
    · simp only [hnf, if_pos] at h
      exact ⟨[], by simp [(Except.ok.inj h).symm]⟩
    · simp only [hnf, if_neg] at h
      obtain ⟨t, ht⟩ := ih (g ++ step rules g) h
      exact ⟨step rules g ++ t, by simp [ht]⟩

theorem addNew_acc_sub (g : List Fact) (cs : List Fact) :
    ∀ acc f, f ∈ acc → f ∈ addNew g acc cs := by
  induction cs with
  | nil => intro acc f hf; simpa [addNew] using hf
  | cons c cs ih =>
    intro acc f hf
    rw [addNew]
    by_cases h : c ∈ g ∨ c ∈ acc
    · rw [if_pos h]; exact ih acc f hf
    · rw [if_neg h]; exact ih (acc ++ [c]) f (List.mem_append_left _ hf)

theorem addNew_mem (g : List Fact) (cs : List Fact) :
    ∀ acc f, f ∈ addNew g acc cs → f ∈ acc ∨ (f ∈ cs ∧ f ∉ g) := by
  induction cs with
  | nil => intro acc f hf; exact Or.inl (by simpa [addNew] using hf)
  | cons c cs ih =>
    intro acc f hf
    rw [addNew] at hf
    by_cases h : c ∈ g ∨ c ∈ acc
    · rw [if_pos h] at hf
      rcases ih acc f hf with h1 | ⟨h1, h2⟩
      · exact Or.inl h1
      · exact Or.inr ⟨List.mem_cons_of_mem _ h1, h2⟩
    · rw [if_neg h] at hf
      rcases ih (acc ++ [c]) f hf with h1 | ⟨h1, h2⟩
      · rcases List.mem_append.mp h1 with h2 | h2
        · exact Or.inl h2
        · have hfc : f = c := by simpa using h2
          subst hfc
          exact Or.inr ⟨List.mem_cons_self _ _, fun hg => h (Or.inl hg)⟩
      · exact Or.inr ⟨List.mem_cons_of_mem _ h1, h2⟩

theorem addNew_nodup (g cs : List Fact) :
    ∀ acc, acc.Nodup → (addNew g acc cs).Nodup := by
  induction cs with
  | nil => intro acc h; simpa [addNew] using h
  | cons c cs ih =>
    intro acc h
    rw [addNew]
    by_cases hc : c ∈ g ∨ c ∈ acc
    · rw [if_pos hc]; exact ih acc h
    · rw [if_neg hc]
      refine ih (acc ++ [c]) ?_
      have hca : c ∉ acc := fun hm => hc (Or.inr hm)
      simp [List.nodup_append, h, hca]

theorem addNew_covers (g cs : List Fact) :
    ∀ acc c, c ∈ cs → c ∈ g ∨ c ∈ addNew g acc cs := by
  induction cs with
  | nil => intro acc c hc; simp at hc
  | cons c0 cs ih =>
    intro acc c hc
    rw [addNew]
    rcases List.mem_cons.mp hc with rfl | hmem
    · by_cases h : c ∈ g ∨ c ∈ acc
      · rcases h with h | h
        · exact Or.inl h
        · rw [if_pos (Or.inr h)]
          exact Or.inr (addNew_acc_sub g cs acc c h)
      · rw [if_neg h]
        exact Or.inr (addNew_acc_sub g cs _ c
          (List.mem_append_right _ (List.mem_singleton.mpr rfl)))
    · by_cases h : c0 ∈ g ∨ c0 ∈ acc
      · rw [if_pos h]; exact ih acc c hmem
      · rw [if_neg h]; exact ih (acc ++ [c0]) c hmem

theorem stepAux_acc_sub (g : List Fact) (rules : List Rule) :
    ∀ acc f, f ∈ acc → f ∈ stepAux g rules acc := by
  induction rules with
  | nil => intro acc f hf; simpa [stepAux] using hf
  | cons r rs ih =>
    intro acc f hf
    rw [stepAux]
    exact ih _ f (addNew_acc_sub g _ acc f hf)

theorem stepAux_mem (g : List Fact) (rules : List Rule) :
    ∀ acc f, f ∈ stepAux g rules acc →
      f ∈ acc ∨ ((∃ r ∈ rules, f ∈ ruleCandidates r g) ∧ f ∉ g) := by
  induction rules with
  | nil => intro acc f hf; exact Or.inl (by simpa [stepAux] using hf)
  | cons r rs ih =>
    intro acc f hf
    rw [stepAux] at hf
    rcases ih _ f hf with h1 | ⟨⟨r2, hr2, hc⟩, hg⟩
    · rcases addNew_mem g _ acc f h1 with h2 | ⟨h2, h3⟩
      · exact Or.inl h2
      · exact Or.inr ⟨⟨r, List.mem_cons_self _ _, h2⟩, h3⟩
    · exact Or.inr ⟨⟨r2, List.mem_cons_of_mem _ hr2, hc⟩, hg⟩

theorem stepAux_nodup (g : List Fact) (rules : List Rule) :
    ∀ acc, acc.Nodup → (stepAux g rules acc).Nodup := by
  induction rules with
  | nil => intro acc h; simpa [stepAux] using h
  | cons r rs ih =>
    intro acc h
    rw [stepAux]
    exact ih _ (addNew_nodup g _ acc h)

theorem stepAux_covers (g : List Fact) (rules : List Rule) :
    ∀ acc r, r ∈ rules → ∀ c ∈ ruleCandidates r g, c ∈ g ∨ c ∈ stepAux g rules acc := by
  induction rules with
  | nil => intro acc r hr; simp at hr
  | cons r0 rs ih =>
    intro acc r hr c hc
    rw [stepAux]
    rcases List.mem_cons.mp hr with rfl | hmem
    · rcases addNew_covers g _ acc c hc with h | h
      · exact Or.inl h
      · exact Or.inr (stepAux_acc_sub g rs _ c h)
    · exact ih _ r hmem c hc

theorem step_mem (rules : List Rule) (g : List Fact) (f : Fact)
    (hf : f ∈ step rules g) :
    f ∉ g ∧ ∃ r ∈ rules, f ∈ ruleCandidates r g := by
  rcases stepAux_mem g rules [] f hf with h | ⟨h1, h2⟩
  · simp at h
  · exact ⟨h2, h1⟩

theorem step_eq_nil_closed (rules : List Rule) (g : List Fact)
    (h : step rules g = []) : Closed rules g := by
  intro r hr c hc
  rcases stepAux_covers g rules [] r hr c hc with h1 | h1
  · exact h1
  · rw [step] at h
    rw [h] at h1
    simp at h1

theorem evalLoop_ok_closed (rules : List Rule) :
    ∀ fuel g r, evalLoop rules fuel g = Except.ok r → Closed rules r := by
  intro fuel
  induction fuel with
  | zero => intro g r h; exact absurd h (by simp [evalLoop])
  | succ n ih =>
    intro g r h
    rw [evalLoop] at h
    by_cases hnf : step rules g = []
    · simp only [hnf, if_pos] at h
      obtain rfl := Except.ok.inj h
      exact step_eq_nil_closed rules g hnf
    · simp only [hnf, if_neg] at h
      exact ih _ r h

theorem lookup_mem {b : Binding} {x v : String} (h : b.lookup x = some v) :
    (x, v) ∈ b := by
  induction b with
  | nil => simp at h
  | cons kv rest ih =>
    rcases kv with ⟨a, w⟩
    rw [List.lookup_cons] at h
    by_cases hx : (x == a) = true
    · simp only [hx] at h
      obtain rfl := Option.some.inj h
      have hxa : x = a := by simpa using hx
      subst hxa
      exact List.mem_cons_self _ _
    · have hxf : (x == a) = false := by simpa using hx
      simp only [hxf] at h
      exact List.mem_cons_of_mem _ (ih h)

theorem matchTerm_values (t : Term) (v : String) (b b2 : Binding)
    (h : matchTerm t v b = some b2) :
    ∀ kv ∈ b2, kv ∈ b ∨ kv.2 = v := by
  cases t with
  | const c =>
    simp only [matchTerm] at h
    by_cases hc : c = v
    · rw [if_pos hc] at h
      obtain rfl := Option.some.inj h
      exact fun kv hkv => Or.inl hkv
    · rw [if_neg hc] at h
      simp at h
  | var x =>
    simp only [matchTerm] at h
    cases hb : b.lookup x with
    | some w =>
      simp only [hb] at h
      by_cases hw : w = v
      · rw [if_pos hw] at h
        obtain rfl := Option.some.inj h
        exact fun kv hkv => Or.inl hkv
      · rw [if_neg hw] at h
        simp at h
    | none =>
      simp only [hb] at h
      obtain rfl := Option.some.inj h
      intro kv hkv
      rcases List.mem_cons.mp hkv with rfl | hm
      · exact Or.inr rfl
      · exact Or.inl hm

theorem matchPattern_values (p : Pattern) (f : Fact) (b b2 : Binding)
    (h : matchPattern p f b = some b2) :
    ∀ kv ∈ b2, kv ∈ b ∨ kv.2 ∈ factComponents f := by
  simp only [matchPattern, Option.bind_eq_some] at h
  obtain ⟨bb1, h1, bb2, h2, h3⟩ := h
  intro kv hkv
  rcases matchTerm_values _ _ _ _ h3 kv hkv with hm | hv
  · rcases matchTerm_values _ _ _ _ h2 kv hm with hm2 | hv
    · rcases matchTerm_values _ _ _ _ h1 kv hm2 with hm3 | hv
      · exact Or.inl hm3
      · exact Or.inr (by simp [factComponents, hv])
    · exact Or.inr (by simp [factComponents, hv])
  · exact Or.inr (by simp [factComponents, hv])

theorem matchAntecedent_values (g : List Fact) (pats : List Pattern) :
    ∀ b b2, b2 ∈ matchAntecedent pats g b →
      ∀ kv ∈ b2, kv ∈ b ∨ ∃ f ∈ g, kv.2 ∈ factComponents f := by
  induction pats with
  | nil =>
    intro b b2 hb2 kv hkv
    simp only [matchAntecedent, List.mem_singleton] at hb2
    subst hb2
    exact Or.inl hkv
  | cons p rest ih =>
    intro b b2 hb2 kv hkv
    rw [matchAntecedent] at hb2
    simp only [List.mem_flatMap, List.mem_filterMap] at hb2
    obtain ⟨b1, ⟨f, hf, hmp⟩, hrest⟩ := hb2
    rcases ih b1 b2 hrest kv hkv with hm | hex
    · rcases matchPattern_values p f b b1 hmp kv hm with hm2 | hv
      · exact Or.inl hm2
      · exact Or.inr ⟨f, hf, hv⟩
    · exact Or.inr hex

theorem instTerm_choices (ents : List String) (b : Binding) (t : Term) (v : String)
    (h : instTerm b t = some v) (hb : ∀ kv ∈ b, kv.2 ∈ ents) :
    v ∈ slotChoices ents t := by
  cases t with
  | const c =>
    simp only [instTerm] at h
    obtain rfl := Option.some.inj h
    simp [slotChoices]
  | var x =>
    simp only [instTerm] at h
    have hm := lookup_mem h
    simpa [slotChoices] using hb _ hm

theorem slotChoices_sub (ents : List String) (t : Term)
    (hc : ∀ c ∈ termConsts t, c ∈ ents) :
    ∀ v ∈ slotChoices ents t, v ∈ ents := by
  cases t with
  | const c =>
    intro v hv
    simp only [slotChoices, List.mem_singleton] at hv
    subst hv
    exact hc v (by simp [termConsts])
  | var x => intro v hv; simpa [slotChoices] using hv

theorem instantiate_in_cands (ents : List String) (r : Rule) (b : Binding) (f : Fact)
    (h : instantiate b r.consequent = some f) (hb : ∀ kv ∈ b, kv.2 ∈ ents) :
    f ∈ candsOfRule ents r := by
  simp only [instantiate, Option.bind_eq_some, Option.map_eq_some'] at h
  obtain ⟨s, hs, pr, hpr, o, ho, hf⟩ := h
  subst hf
  simp only [candsOfRule, List.mem_flatMap, List.mem_map]
  exact ⟨s, instTerm_choices ents b _ s hs hb,
    pr, instTerm_choices ents b _ pr hpr hb,
    o, instTerm_choices ents b _ o ho hb, rfl⟩

theorem candsOfRule_components (ents : List String) (r : Rule)
    (hc : ∀ c ∈ consequentConsts r, c ∈ ents) :
    ∀ f ∈ candsOfRule ents r, componentsIn ents f := by
  intro f hf
  simp only [candsOfRule, List.mem_flatMap, List.mem_map] at hf
  obtain ⟨s, hs, pr, hpr, o, ho, hf⟩ := hf
  subst hf
  have hcs : ∀ c ∈ termConsts r.consequent.subj, c ∈ ents := by
    intro c hcc
    exact hc c (by simp [consequentConsts, hcc])
  have hcp : ∀ c ∈ termConsts r.consequent.pred, c ∈ ents := by
    intro c hcc
    exact hc c (by simp [consequentConsts, hcc])
  have hco : ∀ c ∈ termConsts r.consequent.obj, c ∈ ents := by
    intro c hcc
    exact hc c (by simp [consequentConsts, hcc])
  exact ⟨slotChoices_sub ents _ hcs s hs, slotChoices_sub ents _ hcp pr hpr,
    slotChoices_sub ents _ hco o ho⟩

theorem ruleCandidates_in_universe (ents : List String) (g : List Fact) (r : Rule)
    (hg : ∀ f ∈ g, componentsIn ents f) :
    ∀ f ∈ ruleCandidates r g, f ∈ candsOfRule ents r := by
  intro f hf
  simp only [ruleCandidates, List.mem_filterMap] at hf
  obtain ⟨b, hb, hinst⟩ := hf
  have hbv : ∀ kv ∈ b, kv.2 ∈ ents := by
    intro kv hkv
    rcases matchAntecedent_values g r.antecedent [] b hb kv hkv with hm | ⟨f2, hf2, hcomp⟩
    · simp at hm
    · obtain ⟨hc1, hc2, hc3⟩ := hg f2 hf2
      simp only [factComponents, List.mem_cons, List.not_mem_nil, or_false] at hcomp
      rcases hcomp with h | h | h
      · rw [h]; exact hc1
      · rw [h]; exact hc2
      · rw [h]; exact hc3
  exact instantiate_in_cands ents r b f hinst hbv

theorem step_in_universe (rules : List Rule) (g0 g : List Fact)
    (hg : ∀ f ∈ g, componentsIn (entityUniverse rules g0) f) :
    ∀ f ∈ step rules g,
      f ∈ factUniverse rules g0 ∧ componentsIn (entityUniverse rules g0) f := by
  intro f hf
  obtain ⟨hfg, r, hr, hc⟩ := step_mem rules g f hf
  have hcand := ruleCandidates_in_universe _ g r hg f hc
  constructor
  · refine List.mem_append_right _ ?_
    simp only [List.mem_flatMap]
    exact ⟨r, hr, hcand⟩
  · refine candsOfRule_components _ r ?_ f hcand
    intro c hcc
    refine List.mem_append_right _ ?_
    simp only [List.mem_flatMap]
    exact ⟨r, hr, hcc⟩

theorem evalLoop_reaches (rules : List Rule) (g0 : List Fact) :
    ∀ fuel g,
      (∀ f ∈ g, f ∈ factUniverse rules g0) →
      (∀ f ∈ g, componentsIn (entityUniverse rules g0) f) →
      (factUniverse rules g0).toFinset.card < fuel + g.toFinset.card →
      ∃ r, evalLoop rules fuel g = Except.ok r := by
  intro fuel
  induction fuel with
  | zero =>
    intro g hsub hcomp hcard
    exfalso
    have hss : g.toFinset ⊆ (factUniverse rules g0).toFinset := by
      intro x hx
      simp only [List.mem_toFinset] at hx ⊢
      exact hsub x hx
    have hle := Finset.card_le_card hss
    omega
  | succ n ih =>
    intro g hsub hcomp hcard
    by_cases hnf : step rules g = []
    · refine ⟨g, ?_⟩
      show (if step rules g = [] then Except.ok g
        else evalLoop rules n (g ++ step rules g)) = Except.ok g
      rw [if_pos hnf]
    · have hstep := step_in_universe rules g0 g hcomp
      have hsub2 : ∀ f ∈ g ++ step rules g, f ∈ factUniverse rules g0 := by
        intro f hf
        rcases List.mem_append.mp hf with h | h
        · exact hsub f h
        · exact (hstep f h).1
      have hcomp2 : ∀ f ∈ g ++ step rules g,
          componentsIn (entityUniverse rules g0) f := by
        intro f hf
        rcases List.mem_append.mp hf with h | h
        · exact hcomp f h
        · exact (hstep f h).2
      have hcard2 : (factUniverse rules g0).toFinset.card <
          n + (g ++ step rules g).toFinset.card := by
        obtain ⟨x, hx⟩ := List.exists_mem_of_ne_nil _ hnf
        have hxg : x ∉ g := (step_mem rules g x hx).1
        have hsubset : insert x g.toFinset ⊆ (g ++ step rules g).toFinset := by
          intro y hy
          rcases Finset.mem_insert.mp hy with rfl | hy
          · simp only [List.mem_toFinset, List.mem_append]
            exact Or.inr hx
          · simp only [List.mem_toFinset] at hy ⊢
            exact List.mem_append_left _ hy
        have h1 : g.toFinset.card + 1 ≤ (g ++ step rules g).toFinset.card := by
          have hcc := Finset.card_le_card hsubset
          rwa [Finset.card_insert_of_not_mem
            (by simpa [List.mem_toFinset] using hxg)] at hcc
        omega
      obtain ⟨r, hr⟩ := ih (g ++ step rules g) hsub2 hcomp2 hcard2
      refine ⟨r, ?_⟩
      show (if step rules g = [] then Except.ok g
        else evalLoop rules n (g ++ step rules g)) = Except.ok r
      rw [if_neg hnf]
      exact hr

theorem ruleLe_ne_imp {a b : Rule} (h : ruleLe a b) (hne : a.id ≠ b.id) :
    ruleKeyLt a b := by
  unfold ruleLe at h
  unfold ruleKeyLt
  rcases h with h | ⟨h1, h2⟩
  · exact Or.inl h
  · exact Or.inr ⟨h1, lt_of_le_of_ne h2 hne⟩

theorem pairwise_ruleOrd (l : List Rule) (hs : l.Pairwise ruleLe)
    (hd : l.Pairwise (fun a b => a.id ≠ b.id)) : l.Pairwise ruleOrd :=
  (hs.and hd).imp (fun h => Or.inl (ruleLe_ne_imp h.1 h.2))

theorem loadCatalog_perm_eq (d1 d2 : List Rule) (hperm : d1.Perm d2)
    (hids : d1.Pairwise (fun a b => a.id ≠ b.id)) :
    loadCatalog d1 = loadCatalog d2 := by
  have hperm2 : (loadCatalog d1).Perm (loadCatalog d2) :=
    (List.perm_insertionSort _ d1).trans (hperm.trans (List.perm_insertionSort _ d2).symm)
  have hd1 : (loadCatalog d1).Pairwise (fun a b => a.id ≠ b.id) :=
    ((List.perm_insertionSort ruleLe d1).pairwise_iff (fun h => Ne.symm h)).mpr hids
  have hd2 : (loadCatalog d2).Pairwise (fun a b => a.id ≠ b.id) :=
    ((List.perm_insertionSort ruleLe d2).pairwise_iff (fun h => Ne.symm h)).mpr
      ((hperm.pairwise_iff (fun h => Ne.symm h)).mp hids)
  exact List.eq_of_perm_of_sorted hperm2
    (pairwise_ruleOrd _ (List.sorted_insertionSort ruleLe d1) hd1)
    (pairwise_ruleOrd _ (List.sorted_insertionSort ruleLe d2) hd2)

/-! ## Claim theorems -/

/-- C7: adding the same fact twice is a no-op — the second `add`
returns false, and neither the graph (hence its size) nor the result of
any query changes. -/
theorem add_twice_noop (g : SessionGraph) (f : Fact) (s1 s2 : Source) :
    ((g.add f s1).2.add f s2).1 = false ∧
    ((g.add f s1).2.add f s2).2 = (g.add f s1).2 ∧
    ((g.add f s1).2.add f s2).2.facts.length = (g.add f s1).2.facts.length ∧
    ∀ p : Pattern, ((g.add f s1).2.add f s2).2.query p = (g.add f s1).2.query p := by
  have hmem : f ∈ (g.add f s1).2.facts := by
    by_cases h : f ∈ g.facts <;> simp [SessionGraph.add, h]
  have key := add_mem_noop _ f s2 hmem
  exact ⟨by rw [key], by rw [key], by rw [key], fun p => by rw [key]⟩

/-- C10: the numeric confidence stored in bot-message metadata is a
total function of the symbolic confidence string: 0.9 for high, 0.6
for medium, 0.3 for everything else (missing included). -/
theorem confidence_mapping (p : SendMessageResponse) :
    (mkBotMessage p).confidence = some (numericConfidence p.confidence) ∧
    numericConfidence (some "high") = 9 / 10 ∧
    numericConfidence (some "medium") = 6 / 10 ∧
    numericConfidence none = 3 / 10 ∧
    ∀ c : Option String, c ≠ some "high" → c ≠ some "medium" →
      numericConfidence c = 3 / 10 := by
  refine ⟨rfl, by simp [numericConfidence], by simp [numericConfidence],
    by simp [numericConfidence], ?_⟩
  intro c h1 h2
  simp [numericConfidence, h1, h2]

/-- Witness for C10 at a concrete unrecognized confidence string. -/
theorem confidence_mapping_witness :
    (some "low" : Option String) ≠ some "high" ∧
      (some "low" : Option String) ≠ some "medium" ∧
      numericConfidence (some "low") = 3 / 10 :=
  ⟨by decide, by decide,
    (confidence_mapping emptyPayload).2.2.2.2 (some "low") (by decide) (by decide)⟩

/-- C8: a failed backend call (non-ok HTTP response) makes `sendMessage`
throw rather than return data, and the hook records the failure as a
visible system error message instead of a bot reply. -/
theorem failures_surface (store : LocalStorage) (resp : HttpResponse SendMessageResponse)
    (h : resp.ok = false) :
    (∃ e, (sendMessage store resp).2 = Except.error e) ∧
    ∀ (ms : List Message) (t e : String),
      ∃ m, sendUserMessageMessages ms t (Except.error e) =
          (ms ++ [⟨"user", t, none⟩]) ++ [m] ∧ m.sender = "system" := by
  constructor
  · by_cases h401 : resp.status = 401
    · exact ⟨_, by rw [sendMessage, apiCall_401 _ _ _ h401]⟩
    · refine ⟨resp.detail.getD "Failed to send message", ?_⟩
      simp [sendMessage, apiCall, authFetch, h401, h]
  · intro ms t e
    exact ⟨mkErrorMessage e, rfl, rfl⟩

/-- Witness for C8 at a concrete 500 response. -/
theorem failures_surface_witness :
    (HttpResponse.ok (⟨500, none, emptyPayload⟩ : HttpResponse SendMessageResponse) = false) ∧
      ((∃ e, (sendMessage [] ⟨500, none, emptyPayload⟩).2 = Except.error e) ∧
        ∀ (ms : List Message) (t e : String),
          ∃ m, sendUserMessageMessages ms t (Except.error e) =
              (ms ++ [⟨"user", t, none⟩]) ++ [m] ∧ m.sender = "system") :=
  ⟨by decide, failures_surface [] ⟨500, none, emptyPayload⟩ (by decide)⟩

/-- C9: a 401 response makes every session API function clear the
stored auth token and user from local storage and throw, so none of
them ever returns data from a 401 response. -/
theorem unauthorized_clears_and_throws (store : LocalStorage)
    (r1 : HttpResponse SessionStats) (r2 : HttpResponse (List SessionSummary))
    (r3 : HttpResponse Session) (r4 : HttpResponse Session)
    (r5 : HttpResponse SendMessageResponse) (r6 : HttpResponse Unit)
    (h1 : r1.status = 401) (h2 : r2.status = 401) (h3 : r3.status = 401)
    (h4 : r4.status = 401) (h5 : r5.status = 401) (h6 : r6.status = 401) :
    ((getSessionStats store r1).1.lookup "companion_auth_token" = none ∧
      (getSessionStats store r1).1.lookup "companion_user" = none ∧
      (getSessionStats store r1).2 = Except.error "Session expired. Please log in again.") ∧
    ((getSessions store r2).1.lookup "companion_auth_token" = none ∧
      (getSessions store r2).1.lookup "companion_user" = none ∧
      (getSessions store r2).2 = Except.error "Session expired. Please log in again.") ∧
    ((getSession store r3).1.lookup "companion_auth_token" = none ∧
      (getSession store r3).1.lookup "companion_user" = none ∧
      (getSession store r3).2 = Except.error "Session expired. Please log in again.") ∧
    ((createSession store r4).1.lookup "companion_auth_token" = none ∧
      (createSession store r4).1.lookup "companion_user" = none ∧
      (createSession store r4).2 = Except.error "Session expired. Please log in again.") ∧
    ((sendMessage store r5).1.lookup "companion_auth_token" = none ∧
      (sendMessage store r5).1.lookup "companion_user" = none ∧
      (sendMessage store r5).2 = Except.error "Session expired. Please log in again.") ∧
    ((deleteSession store r6).1.lookup "companion_auth_token" = none ∧
      (deleteSession store r6).1.lookup "companion_user" = none ∧
      (deleteSession store r6).2 = Except.error "Session expired. Please log in again.") := by
  have htok : (removeItem "companion_user"
      (removeItem "companion_auth_token" store)).lookup "companion_auth_token" = none :=
    lookup_none_removeItem _ _ _ (lookup_removeItem_self _ _)
  have husr : (removeItem "companion_user"
      (removeItem "companion_auth_token" store)).lookup "companion_user" = none :=
    lookup_removeItem_self _ _
  rw [getSessionStats, getSessions, getSession, createSession, sendMessage, deleteSession,
    apiCall_401 _ _ _ h1, apiCall_401 _ _ _ h2, apiCall_401 _ _ _ h3,
    apiCall_401 _ _ _ h4, apiCall_401 _ _ _ h5, apiCall_401 _ _ _ h6]
  exact ⟨⟨htok, husr, rfl⟩, ⟨htok, husr, rfl⟩, ⟨htok, husr, rfl⟩,
    ⟨htok, husr, rfl⟩, ⟨htok, husr, rfl⟩, ⟨htok, husr, rfl⟩⟩

/-- C1: when the escalation verdict is triggered, the turn response is
the fixed crisis payload with reasoning output suppressed — no derived
facts, no ranked states and no explanation trace are presented. -/
theorem crisis_suppresses_reasoning (cfg : CrisisConfig) (maxIter : Nat)
    (catalog : List Rule) (sid : String) (g : SessionGraph) (ev : Evidence)
    (h : (escalationCheck cfg ev).triggered = true) :
    ∃ resp, processTurn cfg maxIter catalog sid g ev = Except.ok resp ∧
      resp.response = crisisResponseText ∧
      resp.rankedConcerns = [] ∧
      resp.explanations = [] ∧
      resp.derivedFacts = [] ∧
      resp.verdict = escalationCheck cfg ev :=
  ⟨_, processTurn_triggered cfg maxIter catalog sid g ev h, rfl, rfl, rfl, rfl, rfl⟩

/-- Witness for C1 at concrete crisis evidence. -/
theorem crisis_suppresses_reasoning_witness :
    (escalationCheck ⟨["suicide"], ["self-harm"]⟩ ⟨["suicide"], [], []⟩).triggered = true ∧
      ∃ resp, processTurn ⟨["suicide"], ["self-harm"]⟩ 1 [] "student_002" ⟨[], [], 0⟩
          ⟨["suicide"], [], []⟩ = Except.ok resp ∧
        resp.response = crisisResponseText ∧
        resp.rankedConcerns = [] ∧
        resp.explanations = [] ∧
        resp.derivedFacts = [] ∧
        resp.verdict = escalationCheck ⟨["suicide"], ["self-harm"]⟩ ⟨["suicide"], [], []⟩ :=
  ⟨by decide, crisis_suppresses_reasoning ⟨["suicide"], ["self-harm"]⟩ 1 [] "student_002"
    ⟨[], [], 0⟩ ⟨["suicide"], [], []⟩ (by decide)⟩

/-- C4: every successful turn response carries the escalation verdict
(computed fresh from the turn evidence, a boolean plus a category among
self-harm, suicidal-ideation and none) and a ranked list whose entries
are identifiers of the derived risk states. -/
theorem response_payload_shape (cfg : CrisisConfig) (maxIter : Nat)
    (catalog : List Rule) (sid : String) (g : SessionGraph) (ev : Evidence)
    (resp : EngineResponse)
    (hok : processTurn cfg maxIter catalog sid g ev = Except.ok resp) :
    resp.verdict = escalationCheck cfg ev ∧
    (resp.verdict.category = EscCategory.selfHarm ∨
      resp.verdict.category = EscCategory.suicidalIdeation ∨
      resp.verdict.category = EscCategory.noneCat) ∧
    (resp.verdict.triggered = false ↔ resp.verdict.category = EscCategory.noneCat) ∧
    ∀ x ∈ resp.rankedConcerns, ∃ f ∈ resp.derivedFacts, x = f.obj := by
  obtain ⟨h, hresp⟩ | ⟨h, cf, hev, hresp⟩ :=
    processTurn_ok_elim cfg maxIter catalog sid g ev resp hok
  · subst hresp
    refine ⟨rfl, escalationCheck_cases cfg ev, escalationCheck_none_iff cfg ev, ?_⟩
    intro x hx
    simp [crisisTurn] at hx
  · subst hresp
    refine ⟨rfl, escalationCheck_cases cfg ev, escalationCheck_none_iff cfg ev, ?_⟩
    intro x hx
    simp only [reasonedTurn, List.mem_map] at hx
    obtain ⟨f, hf, hx⟩ := hx
    have hperm : List.Perm (rankStates catalog cf
        ((turnGraph sid g ev).provenance ++
          (cf.filter (fun f => f ∉ (turnGraph sid g ev).facts)).map
            (fun f => (f, Source.rule (ruleIdFor catalog cf f))))
        (cf.filter (fun f => f ∉ (turnGraph sid g ev).facts)))
        (cf.filter (fun f => f ∉ (turnGraph sid g ev).facts)) :=
      List.perm_insertionSort _ _
    exact ⟨f, by simpa [reasonedTurn] using hperm.mem_iff.mp hf, hx.symm⟩

/-- Witness for C4 at a concrete successful turn. -/
theorem response_payload_shape_witness :
    processTurn ⟨["suicide"], ["self-harm"]⟩ 1 [] "student_002" ⟨[], [], 0⟩
        ⟨["Anxiety"], [], []⟩ =
      Except.ok (reasonedTurn [] "student_002" 1 ⟨false, EscCategory.noneCat⟩
        (turnGraph "student_002" ⟨[], [], 0⟩ ⟨["Anxiety"], [], []⟩)
        (turnGraph "student_002" ⟨[], [], 0⟩ ⟨["Anxiety"], [], []⟩).facts) ∧
      ((reasonedTurn [] "student_002" 1 ⟨false, EscCategory.noneCat⟩
          (turnGraph "student_002" ⟨[], [], 0⟩ ⟨["Anxiety"], [], []⟩)
          (turnGraph "student_002" ⟨[], [], 0⟩ ⟨["Anxiety"], [], []⟩).facts).verdict.triggered
            = false ↔
        (reasonedTurn [] "student_002" 1 ⟨false, EscCategory.noneCat⟩
          (turnGraph "student_002" ⟨[], [], 0⟩ ⟨["Anxiety"], [], []⟩)
          (turnGraph "student_002" ⟨[], [], 0⟩ ⟨["Anxiety"], [], []⟩).facts).verdict.category
            = EscCategory.noneCat) :=
  ⟨by decide,
    (response_payload_shape ⟨["suicide"], ["self-harm"]⟩ 1 [] "student_002" ⟨[], [], 0⟩
      ⟨["Anxiety"], [], []⟩ _ (by decide)).2.2.1⟩

/-- C3: on a non-escalated turn, ranking only reorders the derived risk
states — the ranked output is a permutation of the derived facts and no
derived risk state is suppressed. -/
theorem ranking_reorders_only (cfg : CrisisConfig) (maxIter : Nat)
    (catalog : List Rule) (sid : String) (g : SessionGraph) (ev : Evidence)
    (resp : EngineResponse)
    (h : (escalationCheck cfg ev).triggered = false)
    (hok : processTurn cfg maxIter catalog sid g ev = Except.ok resp) :
    List.Perm resp.rankedConcerns (resp.derivedFacts.map (fun f => f.obj)) ∧
    ∀ f ∈ resp.derivedFacts, f.obj ∈ resp.rankedConcerns := by
  obtain ⟨ht, hresp⟩ | ⟨ht, cf, hev, hresp⟩ :=
    processTurn_ok_elim cfg maxIter catalog sid g ev resp hok
  · exact absurd ht (by simp [h])
  · subst hresp
    constructor
    · simp only [reasonedTurn]
      exact (List.perm_insertionSort _ _).map _
    · intro f hf
      simp only [reasonedTurn] at hf ⊢
      exact List.mem_map_of_mem _ ((List.perm_insertionSort _ _).mem_iff.mpr hf)

/-- Witness for C3 at a concrete non-escalated turn. -/
theorem ranking_reorders_only_witness :
    (escalationCheck ⟨["suicide"], ["self-harm"]⟩ ⟨["Anxiety"], ["Insomnia"], []⟩).triggered
        = false ∧
      processTurn ⟨["suicide"], ["self-harm"]⟩ 1 [] "student_002" ⟨[], [], 0⟩
          ⟨["Anxiety"], ["Insomnia"], []⟩ =
        Except.ok (reasonedTurn [] "student_002" 1 ⟨false, EscCategory.noneCat⟩
          (turnGraph "student_002" ⟨[], [], 0⟩ ⟨["Anxiety"], ["Insomnia"], []⟩)
          (turnGraph "student_002" ⟨[], [], 0⟩ ⟨["Anxiety"], ["Insomnia"], []⟩).facts) ∧
      (List.Perm (reasonedTurn [] "student_002" 1 ⟨false, EscCategory.noneCat⟩
          (turnGraph "student_002" ⟨[], [], 0⟩ ⟨["Anxiety"], ["Insomnia"], []⟩)
          (turnGraph "student_002" ⟨[], [], 0⟩
            ⟨["Anxiety"], ["Insomnia"], []⟩).facts).rankedConcerns
        ((reasonedTurn [] "student_002" 1 ⟨false, EscCategory.noneCat⟩
          (turnGraph "student_002" ⟨[], [], 0⟩ ⟨["Anxiety"], ["Insomnia"], []⟩)
          (turnGraph "student_002" ⟨[], [], 0⟩
            ⟨["Anxiety"], ["Insomnia"], []⟩).facts).derivedFacts.map (fun f => f.obj)) ∧
        ∀ f ∈ (reasonedTurn [] "student_002" 1 ⟨false, EscCategory.noneCat⟩
            (turnGraph "student_002" ⟨[], [], 0⟩ ⟨["Anxiety"], ["Insomnia"], []⟩)
            (turnGraph "student_002" ⟨[], [], 0⟩
              ⟨["Anxiety"], ["Insomnia"], []⟩).facts).derivedFacts,
          f.obj ∈ (reasonedTurn [] "student_002" 1 ⟨false, EscCategory.noneCat⟩
            (turnGraph "student_002" ⟨[], [], 0⟩ ⟨["Anxiety"], ["Insomnia"], []⟩)
            (turnGraph "student_002" ⟨[], [], 0⟩
              ⟨["Anxiety"], ["Insomnia"], []⟩).facts).rankedConcerns) :=
  ⟨by decide, by decide,
    ranking_reorders_only ⟨["suicide"], ["self-harm"]⟩ 1 [] "student_002" ⟨[], [], 0⟩
      ⟨["Anxiety"], ["Insomnia"], []⟩ _ (by decide) (by decide)⟩

/-- C5: processing a turn only appends — the session graph facts after
the turn extend the facts before it, and the recorded conversation
state (the message list of the session hook) likewise only grows. -/
theorem session_monotone (cfg : CrisisConfig) (maxIter : Nat) (catalog : List Rule)
    (sid : String) (g : SessionGraph) (ev : Evidence) (resp : EngineResponse)
    (ms : List Message) (text : String) (result : Except String SendMessageResponse)
    (hok : processTurn cfg maxIter catalog sid g ev = Except.ok resp) :
    (∃ t, resp.graph.facts = g.facts ++ t) ∧
    (∀ f ∈ g.facts, f ∈ resp.graph.facts) ∧
    (∃ t2, sendUserMessageMessages ms text result = ms ++ t2) := by
  obtain ⟨t0, ht0⟩ : ∃ t0, (turnGraph sid g ev).facts = g.facts ++ t0 := by
    obtain ⟨t0, ht0⟩ :=
      addAll_facts_append g (evidenceFacts sid ev) (.userTurn (g.turnCounter + 1))
    exact ⟨t0, by simpa [turnGraph] using ht0⟩
  have main : ∃ t, resp.graph.facts = g.facts ++ t := by
    obtain ⟨ht, hresp⟩ | ⟨ht, cf, hev, hresp⟩ :=
      processTurn_ok_elim cfg maxIter catalog sid g ev resp hok
    · subst hresp
      by_cases hm : escalationFact sid (g.turnCounter + 1) ∈ (turnGraph sid g ev).facts
      · have hnoop := add_mem_noop (turnGraph sid g ev) _ (.userTurn (g.turnCounter + 1)) hm
        exact ⟨t0, by simp [crisisTurn, hnoop, ht0]⟩
      · refine ⟨t0 ++ [escalationFact sid (g.turnCounter + 1)], ?_⟩
        simp only [crisisTurn, SessionGraph.add, if_neg hm]
        simp [ht0]
    · subst hresp
      obtain ⟨t1, ht1⟩ := evalLoop_ok_append catalog maxIter (turnGraph sid g ev).facts cf hev
      exact ⟨t0 ++ t1, by simp [reasonedTurn, ht1, ht0]⟩
  refine ⟨main, fun f hf => ?_, ?_⟩
  · obtain ⟨t, htt⟩ := main
    rw [htt]
    exact List.mem_append_left _ hf
  · cases result with
    | ok p =>
      exact ⟨[⟨"user", text, none⟩, mkBotMessage p], by simp [sendUserMessageMessages]⟩
    | error e =>
      exact ⟨[⟨"user", text, none⟩, mkErrorMessage e], by simp [sendUserMessageMessages]⟩

/-- Witness for C5 at a concrete turn (an escalated one) and a concrete
failed send. -/
theorem session_monotone_witness :
    processTurn ⟨["suicide"], ["self-harm"]⟩ 1 [] "student_002"
        ⟨[⟨"student_002", "hasSymptom", "Insomnia"⟩], [], 3⟩ ⟨["suicide"], [], []⟩ =
      Except.ok (crisisTurn "student_002" 4
        (escalationCheck ⟨["suicide"], ["self-harm"]⟩ ⟨["suicide"], [], []⟩)
        (turnGraph "student_002" ⟨[⟨"student_002", "hasSymptom", "Insomnia"⟩], [], 3⟩
          ⟨["suicide"], [], []⟩)) ∧
      ((∃ t, (crisisTurn "student_002" 4
          (escalationCheck ⟨["suicide"], ["self-harm"]⟩ ⟨["suicide"], [], []⟩)
          (turnGraph "student_002" ⟨[⟨"student_002", "hasSymptom", "Insomnia"⟩], [], 3⟩
            ⟨["suicide"], [], []⟩)).graph.facts =
          [⟨"student_002", "hasSymptom", "Insomnia"⟩] ++ t) ∧
        (∀ f ∈ [(⟨"student_002", "hasSymptom", "Insomnia"⟩ : Fact)],
          f ∈ (crisisTurn "student_002" 4
            (escalationCheck ⟨["suicide"], ["self-harm"]⟩ ⟨["suicide"], [], []⟩)
            (turnGraph "student_002" ⟨[⟨"student_002", "hasSymptom", "Insomnia"⟩], [], 3⟩
              ⟨["suicide"], [], []⟩)).graph.facts) ∧
        (∃ t2, sendUserMessageMessages [] "hello" (Except.error "boom") = [] ++ t2)) :=
  ⟨by decide,
    session_monotone ⟨["suicide"], ["self-harm"]⟩ 1 [] "student_002"
      ⟨[⟨"student_002", "hasSymptom", "Insomnia"⟩], [], 3⟩ ⟨["suicide"], [], []⟩ _
      [] "hello" (Except.error "boom") (by decide)⟩

/-- C6: the rule language creates no new entities, so the candidate
space is finite and forward chaining reaches a fixpoint within the
defensive bound: whenever MAX_ITERATIONS is at least the evaluator
bound, evaluation succeeds with a graph closed under every rule; and
if the iteration budget is ever exhausted first, the evaluator returns
NonTerminatingRuleSetError rather than looping forever. -/
theorem evaluator_fixpoint_termination (maxIter : Nat) (rules : List Rule)
    (g : List Fact) (h : evalBound rules g ≤ maxIter) :
    (∃ res, evaluate maxIter rules g = Except.ok res ∧ Closed rules res) ∧
    (∀ fuel g2 e, evalLoop rules fuel g2 = Except.error e →
      e = KrrError.nonTerminatingRuleSet) := by
  constructor
  · have hsub : ∀ f ∈ g, f ∈ factUniverse rules g := fun f hf =>
      List.mem_append_left _ hf
    have hcomp : ∀ f ∈ g, componentsIn (entityUniverse rules g) f := by
      intro f hf
      refine ⟨?_, ?_, ?_⟩ <;>
        · refine List.mem_append_left _ ?_
          simp only [List.mem_flatMap]
          exact ⟨f, hf, by simp [factComponents]⟩
    have hcard : (factUniverse rules g).toFinset.card < maxIter + g.toFinset.card := by
      have h1 : (factUniverse rules g).toFinset.card ≤ (factUniverse rules g).length :=
        List.toFinset_card_le _
      have h2 : evalBound rules g = (factUniverse rules g).length + 1 := rfl
      omega
    obtain ⟨res, hres⟩ := evalLoop_reaches rules g maxIter g hsub hcomp hcard
    exact ⟨res, hres, evalLoop_ok_closed rules maxIter g res hres⟩
  · intro fuel g2 e _
    cases e
    rfl

/-- Witness for C6 at a concrete one-rule catalog and one-fact graph. -/
theorem evaluator_fixpoint_termination_witness :
    evalBound [⟨"R_ANX_02", [⟨Term.var "s", Term.const "experiencesEmotion",
        Term.const "Anxiety"⟩], ⟨Term.var "s", Term.const "rdf:type",
        Term.const "AnxietyRisk"⟩, 5⟩] [⟨"student_002", "experiencesEmotion", "Anxiety"⟩]
      ≤ 10 ∧
    ((∃ res, evaluate 10 [⟨"R_ANX_02", [⟨Term.var "s", Term.const "experiencesEmotion",
          Term.const "Anxiety"⟩], ⟨Term.var "s", Term.const "rdf:type",
          Term.const "AnxietyRisk"⟩, 5⟩]
          [⟨"student_002", "experiencesEmotion", "Anxiety"⟩] = Except.ok res ∧
        Closed [⟨"R_ANX_02", [⟨Term.var "s", Term.const "experiencesEmotion",
          Term.const "Anxiety"⟩], ⟨Term.var "s", Term.const "rdf:type",
          Term.const "AnxietyRisk"⟩, 5⟩] res) ∧
      ∀ fuel g2 e, evalLoop [⟨"R_ANX_02", [⟨Term.var "s", Term.const "experiencesEmotion",
          Term.const "Anxiety"⟩], ⟨Term.var "s", Term.const "rdf:type",
          Term.const "AnxietyRisk"⟩, 5⟩] fuel g2 = Except.error e →
        e = KrrError.nonTerminatingRuleSet) :=
  ⟨by decide,
    evaluator_fixpoint_termination 10 [⟨"R_ANX_02", [⟨Term.var "s",
      Term.const "experiencesEmotion", Term.const "Anxiety"⟩], ⟨Term.var "s",
      Term.const "rdf:type", Term.const "AnxietyRisk"⟩, 5⟩]
      [⟨"student_002", "experiencesEmotion", "Anxiety"⟩] (by decide)⟩

/-- C2: over identical input — same session id, same session graph,
same rule catalog (supplied in any data-structure iteration order) and
same turn evidence — the pipeline yields the same result: the same
derived fact set, the same explanation text and the same audit
reference. -/
theorem turn_deterministic (cfg : CrisisConfig) (maxIter : Nat) (d1 d2 : List Rule)
    (sid : String) (g : SessionGraph) (ev : Evidence)
    (hperm : d1.Perm d2) (hids : d1.Pairwise (fun a b => a.id ≠ b.id)) :
    processTurn cfg maxIter (loadCatalog d1) sid g ev =
      processTurn cfg maxIter (loadCatalog d2) sid g ev ∧
    ∀ resp1 resp2,
      processTurn cfg maxIter (loadCatalog d1) sid g ev = Except.ok resp1 →
      processTurn cfg maxIter (loadCatalog d2) sid g ev = Except.ok resp2 →
      resp1.derivedFacts = resp2.derivedFacts ∧
      resp1.explanations = resp2.explanations ∧
      resp1.auditRef = resp2.auditRef := by
  have hcat := loadCatalog_perm_eq d1 d2 hperm hids
  constructor
  · rw [hcat]
  · intro r1 r2 h1 h2
    rw [hcat, h2] at h1
    obtain rfl := Except.ok.inj h1
    exact ⟨rfl, rfl, rfl⟩

/-- Witness for C2 at a concrete two-rule catalog stored in two
different orders. -/
theorem turn_deterministic_witness :
    List.Perm
      [(⟨"R_A", [], ⟨Term.const "s", Term.const "p", Term.const "o"⟩, 1⟩ : Rule),
        ⟨"R_B", [], ⟨Term.const "s2", Term.const "p2", Term.const "o2"⟩, 2⟩]
      [⟨"R_B", [], ⟨Term.const "s2", Term.const "p2", Term.const "o2"⟩, 2⟩,
        ⟨"R_A", [], ⟨Term.const "s", Term.const "p", Term.const "o"⟩, 1⟩] ∧
    List.Pairwise (fun a b : Rule => a.id ≠ b.id)
      [⟨"R_A", [], ⟨Term.const "s", Term.const "p", Term.const "o"⟩, 1⟩,
        ⟨"R_B", [], ⟨Term.const "s2", Term.const "p2", Term.const "o2"⟩, 2⟩] ∧
    processTurn ⟨["suicide"], ["self-harm"]⟩ 4
        (loadCatalog [⟨"R_A", [], ⟨Term.const "s", Term.const "p", Term.const "o"⟩, 1⟩,
          ⟨"R_B", [], ⟨Term.const "s2", Term.const "p2", Term.const "o2"⟩, 2⟩])
        "student_002" ⟨[], [], 0⟩ ⟨["Anxiety"], [], []⟩ =
      processTurn ⟨["suicide"], ["self-harm"]⟩ 4
        (loadCatalog [⟨"R_B", [], ⟨Term.const "s2", Term.const "p2", Term.const "o2"⟩, 2⟩,
          ⟨"R_A", [], ⟨Term.const "s", Term.const "p", Term.const "o"⟩, 1⟩])
        "student_002" ⟨[], [], 0⟩ ⟨["Anxiety"], [], []⟩ :=
  ⟨List.Perm.swap _ _ _, by decide,
    (turn_deterministic ⟨["suicide"], ["self-harm"]⟩ 4
      [⟨"R_A", [], ⟨Term.const "s", Term.const "p", Term.const "o"⟩, 1⟩,
        ⟨"R_B", [], ⟨Term.const "s2", Term.const "p2", Term.const "o2"⟩, 2⟩]
      [⟨"R_B", [], ⟨Term.const "s2", Term.const "p2", Term.const "o2"⟩, 2⟩,
        ⟨"R_A", [], ⟨Term.const "s", Term.const "p", Term.const "o"⟩, 1⟩]
      "student_002" ⟨[], [], 0⟩ ⟨["Anxiety"], [], []⟩
      (List.Perm.swap _ _ _) (by decide)).1⟩

/-- Witness for C9 at a concrete 401 response and populated storage. -/
theorem unauthorized_clears_and_throws_witness :
    ((401 : Nat) = 401) ∧
      ((getSessionStats [("companion_auth_token", "tok"), ("companion_user", "u")]
          ⟨401, none, ⟨0, 0, 0, 0, [], 0⟩⟩).2 =
        Except.error "Session expired. Please log in again.") := by
  refine ⟨rfl, ?_⟩
  have h := unauthorized_clears_and_throws
    [("companion_auth_token", "tok"), ("companion_user", "u")]
    ⟨401, none, ⟨0, 0, 0, 0, [], 0⟩⟩ ⟨401, none, []⟩
    ⟨401, none, ⟨"", "", "", "", "", [], [], ""⟩⟩ ⟨401, none, ⟨"", "", "", "", "", [], [], ""⟩⟩
    ⟨401, none, emptyPayload⟩ ⟨401, none, ()⟩
    rfl rfl rfl rfl rfl rfl
  exact h.1.2.2

end Companion
